import Mathlib

/-!
Verification of the client-side transaction store of an expense-tracker
application (`src/function/src/App.jsx`).

The embedding is shallow: the reducer, the sync-layer failure dispatch,
the derived-view computations (balance, income/expense totals, category
breakdown) and the submit routing are translated into executable Lean
definitions; amounts are modelled as rationals, JS `undefined`/missing
fields as `Option`.
-/

namespace ExpenseApp

/-- A transaction record as produced by the server and held in the store.
`_id` mirrors the Mongo-style id field; `category` and `createdAt` are
optional in stored records (`none` models a missing field). -/
structure Transaction where
  _id : String
  text : String
  amount : ℚ
  category : Option String
  createdAt : Option String
deriving Repr, DecidableEq

/-- The store state managed by `AppReducer` (`initialState` in App.jsx):
transaction list, last error message, loading flag, edit slot. -/
structure AppState where
  transactions : List Transaction
  error : Option String
  loading : Bool
  editing : Option Transaction
deriving Repr, DecidableEq

/-- `initialState` from App.jsx. -/
def initialState : AppState :=
  { transactions := [], error := none, loading := true, editing := none }

/-- The actions dispatched to `AppReducer`. The six recognised action
types each carry their payload; `unknown` stands for any action whose
`type` string is none of the six (the reducer's `default` branch). -/
inductive Action where
  | getTransactions (payload : List Transaction)
  | deleteTransaction (payload : String)
  | addTransaction (payload : Transaction)
  | updateTransaction (payload : Transaction)
  | setEditing (payload : Option Transaction)
  | transactionError (payload : Option String)
  | unknown (ty : String)
deriving Repr, DecidableEq

/-- `AppReducer` from App.jsx, case for case:
`GET_TRANSACTIONS` sets `loading := false` and replaces the list;
`DELETE_TRANSACTION` filters out entries with the given `_id`;
`ADD_TRANSACTION` appends the payload;
`UPDATE_TRANSACTION` maps the entry with matching `_id` to the payload
and clears `editing`;
`SET_EDITING` sets the edit slot; `TRANSACTION_ERROR` sets the error
slot; the default branch returns the state unchanged. -/
def AppReducer (state : AppState) (action : Action) : AppState :=
  match action with
  | .getTransactions payload =>
      { state with loading := false, transactions := payload }
  | .deleteTransaction payload =>
      { state with
          transactions := state.transactions.filter (fun t => t._id ≠ payload) }
  | .addTransaction payload =>
      { state with transactions := state.transactions ++ [payload] }
  | .updateTransaction payload =>
      { state with
          transactions := state.transactions.map
            (fun t => if t._id = payload._id then payload else t),
          editing := none }
  | .setEditing payload => { state with editing := payload }
  | .transactionError payload => { state with error := payload }
  | .unknown _ => state

/-- The information a sync-layer `catch` block reads off an axios error:
`responseBodyError` models the chain `err.response?.data?.error`, which is
`some m` exactly when the request produced a response whose body carried a
structured `error` field, and `none` when that field is absent or the
request never reached the server. -/
structure SyncError where
  responseBodyError : Option String
deriving Repr, DecidableEq

/-- What every sync-layer catch block does
(`dispatch({ type: 'TRANSACTION_ERROR', payload: err.response?.data?.error })`):
it applies a `transactionError` transition carrying the optional
structured error field, with no fallback message. -/
def failDispatch (s : AppState) (e : SyncError) : AppState :=
  AppReducer s (.transactionError e.responseBodyError)

/-- JS `a || b` for an optional string `a`: `none` and the empty string
are falsy and yield the default. -/
def jsOr (a : Option String) (b : String) : String :=
  match a with
  | none => b
  | some s => if s = "" then b else s

/-- One slice of the `SpendingChart` data: a category name and the
accumulated absolute expense amount. -/
structure Group where
  name : String
  value : ℚ
deriving Repr, DecidableEq

/-- One step of the `SpendingChart` reduce body: if the accumulator has
an entry whose `name` is `cat` (JS `acc.find`), add `v` to the first such
entry's `value`; otherwise push `{name: cat, value: v}` at the end. -/
def addToGroup : List Group → String → ℚ → List Group
  | [], cat, v => [⟨cat, v⟩]
  | g :: gs, cat, v =>
      if g.name = cat then ⟨g.name, g.value + v⟩ :: gs
      else g :: addToGroup gs cat v

/-- The `data` computation of `SpendingChart`: keep transactions with
`amount < 0`, then fold them into groups keyed by `curr.category || 'Other'`,
accumulating `Math.abs(curr.amount)`. -/
def categoryBreakdown (ts : List Transaction) : List Group :=
  (ts.filter (fun t => t.amount < 0)).foldl
    (fun acc t => addToGroup acc (jsOr t.category "Other") |t.amount|) []

/-- `totalExpense` in `SpendingChart`: the sum of all group values. -/
def sumValues (gs : List Group) : ℚ :=
  gs.foldl (fun acc g => acc + g.value) 0

/-- The `Balance` component's total: sum of all amounts (the value that
is then formatted with `.toFixed(2)` for display). -/
def balance (ts : List Transaction) : ℚ :=
  ts.foldl (fun acc t => acc + t.amount) 0

/-- The `IncomeExpenses` income figure: sum of the positive amounts. -/
def incomeTotal (ts : List Transaction) : ℚ :=
  (ts.filter (fun t => 0 < t.amount)).foldl (fun acc t => acc + t.amount) 0

/-- The `IncomeExpenses` expense figure: the sum of the negative amounts,
multiplied by -1. -/
def expenseTotal (ts : List Transaction) : ℚ :=
  ((ts.filter (fun t => t.amount < 0)).foldl (fun acc t => acc + t.amount) 0) * (-1)

/-- The payload built by `AddTransaction`'s `onSubmit`:
`{ text, amount: +amount, category }` (the amount is the numeric
coercion of the input field). -/
structure DraftData where
  text : String
  amount : ℚ
  category : String
deriving Repr, DecidableEq

/-- The sync-layer call a submit routes to. -/
inductive SyncCall where
  | create (draft : DraftData)
  | update (id : String) (draft : DraftData)
deriving Repr, DecidableEq

/-- The routing decision in `AddTransaction`'s `onSubmit`: build
`data = {text, amount, category}`; when `editing` is non-null call
`updateTransaction(editing._id, data)`, otherwise `addTransaction(data)`. -/
def onSubmit (editing : Option Transaction) (text : String) (amount : ℚ)
    (category : String) : SyncCall :=
  let data : DraftData := ⟨text, amount, category⟩
  match editing with
  | some e => .update e._id data
  | none => .create data

/-- The seven category ids enumerated in `CATEGORIES`. -/
def categoryIds : List String :=
  ["Food", "Rent", "Utilities", "Entertainment", "Health", "Salary", "Other"]

/-- Spec-side definition, following the spec's words for comparison: the
grouping key the spec (§4.3, §6) claims `categoryBreakdown` uses — a
missing category OR a category outside the seven enumerated values maps
to "Other". Compared against the code's actual key `jsOr t.category "Other"`. -/
def specGroupKey (c : Option String) : String :=
  match c with
  | none => "Other"
  | some s => if s ∈ categoryIds then s else "Other"

/-- The per-group total demanded by the amended C2 reading: among the
expense transactions (`amount < 0`), those whose code-side grouping key
(`category || 'Other'`) equals `n`, summing `|amount|`. -/
def groupSum (ts : List Transaction) (n : String) : ℚ :=
  ((ts.filter (fun t => t.amount < 0)).filter
      (fun t => jsOr t.category "Other" = n)).foldl
    (fun acc t => acc + |t.amount|) 0

/-- Total value recorded under name `n` across a group list (with the
unique-name invariant of `categoryBreakdown` this is the value of the one
entry named `n`, or 0 when absent). -/
def valueOf : List Group → String → ℚ
  | [], _ => 0
  | g :: gs, n => if g.name = n then g.value + valueOf gs n else valueOf gs n

/-- Sample transaction: a 5-unit food expense with id "a". -/
def txA : Transaction := ⟨"a", "coffee", -5, some "Food", none⟩

/-- Sample transaction sharing id "a" with `txA`. -/
def txA2 : Transaction := ⟨"a", "tea", -3, some "Food", none⟩

/-- Sample transaction with fresh id "b". -/
def txB : Transaction := ⟨"b", "salary", 50, some "Salary", none⟩

/-- Sample transaction whose category is a non-empty string outside the
seven enumerated category ids. -/
def txUnknownCat : Transaction := ⟨"c", "stuff", -5, some "Groceries", none⟩

/-- Sample store state holding just `txA`. -/
def sampleState : AppState := ⟨[txA], none, false, none⟩

/-- Sample store state with a recorded error and `txA` being edited. -/
def sampleErrState : AppState := ⟨[txA], some "boom", false, some txA⟩

/- ======================================================================
   Theorems
   ====================================================================== -/

/-- C7: a `TRANSACTION_ERROR` transition changes only the `error` field:
`transactions`, `editing` and `loading` are untouched, and `error`
becomes the payload. -/
theorem transaction_error_frame (s : AppState) (m : Option String) :
    (AppReducer s (.transactionError m)).transactions = s.transactions ∧
    (AppReducer s (.transactionError m)).editing = s.editing ∧
    (AppReducer s (.transactionError m)).loading = s.loading ∧
    (AppReducer s (.transactionError m)).error = m :=
  ⟨rfl, rfl, rfl, rfl⟩

/-- C8: submitting with an empty edit slot routes to `create` with the
draft `{text, amount, category}`; submitting while editing routes to
`update(editing._id, draft)`; and the reducer is total — any
unrecognized action returns the state unchanged. -/
theorem submit_routing_and_default_noop (t : String) (a : ℚ) (c : String) :
    onSubmit none t a c = .create ⟨t, a, c⟩ ∧
    (∀ e : Transaction, onSubmit (some e) t a c = .update e._id ⟨t, a, c⟩) ∧
    (∀ (s : AppState) (ty : String), AppReducer s (.unknown ty) = s) :=
  ⟨rfl, fun _ => rfl, fun _ _ => rfl⟩

/-- C9: no recognized transition other than `TRANSACTION_ERROR` touches
the error slot: from a state with a recorded error message, each of the
five other transitions leaves `error` holding that same message. -/
theorem recognized_transitions_preserve_error (s : AppState) (m : String)
    (h : s.error = some m) (l : List Transaction) (i : String)
    (tx : Transaction) (e : Option Transaction) :
    (AppReducer s (.getTransactions l)).error = some m ∧
    (AppReducer s (.deleteTransaction i)).error = some m ∧
    (AppReducer s (.addTransaction tx)).error = some m ∧
    (AppReducer s (.updateTransaction tx)).error = some m ∧
    (AppReducer s (.setEditing e)).error = some m :=
  ⟨h, h, h, h, h⟩

/-- Witness for C9 at a concrete state with error "boom". -/
theorem recognized_transitions_preserve_error_witness :
    (AppReducer sampleErrState (.getTransactions [])).error = some "boom" ∧
    (AppReducer sampleErrState (.deleteTransaction "a")).error = some "boom" ∧
    (AppReducer sampleErrState (.addTransaction txB)).error = some "boom" ∧
    (AppReducer sampleErrState (.updateTransaction txB)).error = some "boom" ∧
    (AppReducer sampleErrState (.setEditing none)).error = some "boom" :=
  recognized_transitions_preserve_error sampleErrState "boom" rfl [] "a" txB none

/-- C10: a `DELETE_TRANSACTION` transition leaves the edit slot
unchanged, even when the deleted id is the id of the transaction being
edited — in that case `editing` still holds the snapshot while no entry
with that id remains in the list. -/
theorem delete_preserves_editing_slot (s : AppState) (i : String)
    (tx : Transaction) (h : s.editing = some tx) :
    (AppReducer s (.deleteTransaction i)).editing = some tx ∧
    ∀ u ∈ (AppReducer s (.deleteTransaction tx._id)).transactions,
      u._id ≠ tx._id := by
  refine ⟨h, ?_⟩
  intro u hu
  simp only [AppReducer, List.mem_filter, decide_eq_true_eq] at hu
  exact hu.2

/-- Witness for C10: deleting the id currently being edited. -/
theorem delete_preserves_editing_slot_witness :
    (AppReducer sampleErrState (.deleteTransaction "a")).editing = some txA ∧
    ∀ u ∈ (AppReducer sampleErrState (.deleteTransaction txA._id)).transactions,
      u._id ≠ txA._id :=
  delete_preserves_editing_slot sampleErrState "a" txA rfl

/-- C4: an `UPDATE_TRANSACTION` transition whose payload id matches no
entry leaves the transaction list unchanged, and in every case (id
present or absent) it clears the edit slot. -/
theorem replace_absent_noop_clears_editing (s : AppState) (tx : Transaction) :
    ((∀ t ∈ s.transactions, t._id ≠ tx._id) →
      (AppReducer s (.updateTransaction tx)).transactions = s.transactions) ∧
    (AppReducer s (.updateTransaction tx)).editing = none := by
  refine ⟨fun h => ?_, rfl⟩
  show s.transactions.map (fun t => if t._id = tx._id then tx else t) = s.transactions
  calc s.transactions.map (fun t => if t._id = tx._id then tx else t)
      = s.transactions.map id := List.map_congr_left fun t ht => by
        simp [h t ht]
    _ = s.transactions := List.map_id _

/-- Witness for C4 at a concrete state where the replaced id is absent. -/
theorem replace_absent_noop_clears_editing_witness :
    (AppReducer sampleState (.updateTransaction txB)).transactions
        = sampleState.transactions ∧
    (AppReducer sampleState (.updateTransaction txB)).editing = none :=
  ⟨(replace_absent_noop_clears_editing sampleState txB).1 (by decide),
   (replace_absent_noop_clears_editing sampleState txB).2⟩

/-- C3 counterexample: a failed sync whose error carries no structured
response-body field (e.g. a pure network failure) leaves the error slot
with no message at all — there is no generic fallback, contradicting the
claim that the slot always ends up holding a non-null message. -/
theorem failed_sync_error_can_be_null :
    (failDispatch initialState ⟨none⟩).error = none := rfl

/-- C3 amended: a failed sync operation leaves the transaction list and
edit slot unchanged and sets the error slot to exactly the structured
error field of the response body — `some m` when that field is present,
`none` (no fallback message) when it is absent or the request never
reached the server. -/
theorem failed_sync_sets_error_to_body_field (s : AppState) (e : SyncError) :
    (failDispatch s e).transactions = s.transactions ∧
    (failDispatch s e).editing = s.editing ∧
    (failDispatch s e).error = e.responseBodyError :=
  ⟨rfl, rfl, rfl⟩

/-- C5 counterexample: `ADD_TRANSACTION` appends its payload without any
id check, so from a state with pairwise-distinct ids it can produce a
state with a duplicated id. -/
theorem add_duplicate_id_breaks_nodup :
    (sampleState.transactions.map Transaction._id).Nodup ∧
    ¬ ((AppReducer sampleState (.addTransaction txA2)).transactions.map
        Transaction._id).Nodup := by
  constructor
  · decide
  · decide

/-- C5 amended: id-distinctness is preserved by `DELETE_TRANSACTION`,
`UPDATE_TRANSACTION`, `SET_EDITING`, `TRANSACTION_ERROR` and
unrecognized actions unconditionally; by `GET_TRANSACTIONS` when its
payload list itself has distinct ids; and by `ADD_TRANSACTION` when the
appended transaction's id is not already in the list. -/
theorem reducer_preserves_id_nodup_conditional (s : AppState)
    (h : (s.transactions.map Transaction._id).Nodup) :
    (∀ i, ((AppReducer s (.deleteTransaction i)).transactions.map
      Transaction._id).Nodup) ∧
    (∀ tx, ((AppReducer s (.updateTransaction tx)).transactions.map
      Transaction._id).Nodup) ∧
    (∀ e, ((AppReducer s (.setEditing e)).transactions.map
      Transaction._id).Nodup) ∧
    (∀ m, ((AppReducer s (.transactionError m)).transactions.map
      Transaction._id).Nodup) ∧
    (∀ ty, ((AppReducer s (.unknown ty)).transactions.map
      Transaction._id).Nodup) ∧
    (∀ l, (l.map Transaction._id).Nodup →
      ((AppReducer s (.getTransactions l)).transactions.map
        Transaction._id).Nodup) ∧
    (∀ tx, tx._id ∉ s.transactions.map Transaction._id →
      ((AppReducer s (.addTransaction tx)).transactions.map
        Transaction._id).Nodup) := by
  refine ⟨fun i => ?_, fun tx => ?_, fun _ => h, fun _ => h, fun _ => h,
    fun l hl => hl, fun tx hni => ?_⟩
  · exact h.sublist ((List.filter_sublist _).map _)
  · show ((s.transactions.map fun t => if t._id = tx._id then tx else t).map
      Transaction._id).Nodup
    rw [List.map_map]
    have : s.transactions.map (Transaction._id ∘ fun t =>
        if t._id = tx._id then tx else t) = s.transactions.map Transaction._id :=
      List.map_congr_left fun t _ => by
        by_cases hc : t._id = tx._id <;> simp [hc]
    rw [this]; exact h
  · show ((s.transactions ++ [tx]).map Transaction._id).Nodup
    rw [List.map_append, List.map_singleton, List.nodup_append]
    exact ⟨h, List.nodup_singleton _, by
      intro a ha hb
      rw [List.mem_singleton] at hb
      exact hni (hb ▸ ha)⟩

/-- Witness for the amended C5 at concrete states and payloads. -/
theorem reducer_preserves_id_nodup_conditional_witness :
    ((AppReducer sampleState (.deleteTransaction "a")).transactions.map
      Transaction._id).Nodup ∧
    ((AppReducer sampleState (.addTransaction txB)).transactions.map
      Transaction._id).Nodup := by
  have H := reducer_preserves_id_nodup_conditional sampleState (by decide)
  exact ⟨H.1 "a", H.2.2.2.2.2.2 txB (by decide)⟩

/-- Folding `+ f x` over a list starting from `a` yields `a` plus the sum
of the mapped values. -/
theorem foldl_add_map {α : Type} (f : α → ℚ) (l : List α) (a : ℚ) :
    l.foldl (fun acc x => acc + f x) a = a + (l.map f).sum := by
  induction l generalizing a with
  | nil => simp
  | cons x l ih =>
      simp only [List.foldl_cons, List.map_cons, List.sum_cons, ih]; ring

/-- `balance` is the sum of all amounts. -/
theorem balance_eq_sum (ts : List Transaction) :
    balance ts = (ts.map Transaction.amount).sum := by
  simpa [balance] using foldl_add_map Transaction.amount ts 0

/-- `incomeTotal` is the sum of the positive amounts. -/
theorem incomeTotal_eq_sum (ts : List Transaction) :
    incomeTotal ts
      = ((ts.filter (fun t => 0 < t.amount)).map Transaction.amount).sum := by
  simpa [incomeTotal] using
    foldl_add_map Transaction.amount (ts.filter (fun t => 0 < t.amount)) 0

/-- `expenseTotal` is the negation of the sum of the negative amounts. -/
theorem expenseTotal_eq_sum (ts : List Transaction) :
    expenseTotal ts
      = -(((ts.filter (fun t => t.amount < 0)).map Transaction.amount).sum) := by
  have := foldl_add_map Transaction.amount (ts.filter (fun t => t.amount < 0)) 0
  simp only [expenseTotal, this, zero_add]; ring

/-- Every amount sum splits into its positive part plus its negative
part (amounts equal to zero contribute to neither filter and to no sum). -/
theorem sum_split_pos_neg (ts : List Transaction) :
    (ts.map Transaction.amount).sum =
      ((ts.filter (fun t => 0 < t.amount)).map Transaction.amount).sum +
      ((ts.filter (fun t => t.amount < 0)).map Transaction.amount).sum := by
  induction ts with
  | nil => simp
  | cons t ts ih =>
      simp only [List.map_cons, List.sum_cons, List.filter_cons,
        decide_eq_true_eq]
      split_ifs with h1 h2 h2
      · exact absurd h2 (asymm h1)
      · simp only [List.map_cons, List.sum_cons, ih]; ring
      · simp only [List.map_cons, List.sum_cons, ih]; ring
      · have hz : t.amount = 0 := le_antisymm (not_lt.mp h1) (not_lt.mp h2)
        simp [ih, hz]

/-- C1: for every transaction list, the balance equals the income total
minus the expense total, within the claimed 0.01 tolerance (over exact
rationals the identity holds exactly, so the display rounding to two
decimals stays within tolerance). -/
theorem balance_income_expense_invariant (ts : List Transaction) :
    |balance ts - (incomeTotal ts - expenseTotal ts)| ≤ 1 / 100 := by
  have hEq : balance ts = incomeTotal ts - expenseTotal ts := by
    rw [balance_eq_sum, incomeTotal_eq_sum, expenseTotal_eq_sum,
      sum_split_pos_neg ts]
    ring
  rw [hEq, sub_self, abs_zero]
  norm_num

/-- Adding a value into the group list adds exactly that value to the
sum of all group values, whether the key was already present or not. -/
theorem sum_map_value_addToGroup (gs : List Group) (c : String) (v : ℚ) :
    ((addToGroup gs c v).map Group.value).sum = (gs.map Group.value).sum + v := by
  induction gs with
  | nil => simp [addToGroup]
  | cons g gs ih =>
      simp only [addToGroup]
      split_ifs with hc
      · simp only [List.map_cons, List.sum_cons]; ring
      · simp only [List.map_cons, List.sum_cons, ih]; ring

/-- Folding the `SpendingChart` step over a list of transactions adds the
sum of their absolute amounts to the total group value. -/
theorem sum_map_value_breakdown_foldl (l : List Transaction) (acc : List Group) :
    ((l.foldl (fun acc t => addToGroup acc (jsOr t.category "Other") |t.amount|)
        acc).map Group.value).sum
      = (acc.map Group.value).sum + (l.map (fun t => |t.amount|)).sum := by
  induction l generalizing acc with
  | nil => simp
  | cons t l ih =>
      simp only [List.foldl_cons, List.map_cons, List.sum_cons, ih,
        sum_map_value_addToGroup]
      ring

/-- Over the transactions kept by the `amount < 0` filter, summing
absolute amounts is negating the sum of the amounts. -/
theorem abs_sum_of_neg_filter (ts : List Transaction) :
    ((ts.filter (fun t => t.amount < 0)).map (fun t => |t.amount|)).sum
      = -(((ts.filter (fun t => t.amount < 0)).map Transaction.amount).sum) := by
  induction ts with
  | nil => simp
  | cons t ts ih =>
      simp only [List.filter_cons, decide_eq_true_eq]
      split_ifs with h
      · simp only [List.map_cons, List.sum_cons, ih, abs_of_neg h]; ring
      · exact ih

/-- C6: the sum of all category-breakdown group values (the chart's
`totalExpense`) equals the expense total. -/
theorem breakdown_total_eq_expenseTotal (ts : List Transaction) :
    sumValues (categoryBreakdown ts) = expenseTotal ts := by
  have h1 : sumValues (categoryBreakdown ts)
      = ((categoryBreakdown ts).map Group.value).sum := by
    simpa [sumValues] using foldl_add_map Group.value (categoryBreakdown ts) 0
  rw [h1, categoryBreakdown, sum_map_value_breakdown_foldl,
    abs_sum_of_neg_filter, expenseTotal_eq_sum]
  simp

/-- Adding a value under key `c` changes `valueOf` at `n` by `v` when
`c = n` and by nothing otherwise. -/
theorem valueOf_addToGroup (gs : List Group) (c n : String) (v : ℚ) :
    valueOf (addToGroup gs c v) n
      = valueOf gs n + (if c = n then v else 0) := by
  induction gs with
  | nil =>
      simp only [addToGroup, valueOf]
      split_ifs with h <;> simp
  | cons g gs ih =>
      simp only [addToGroup]
      by_cases hc : g.name = c
      · rw [if_pos hc]
        simp only [valueOf]
        by_cases hn : g.name = n
        · rw [if_pos hn, if_pos hn, if_pos (hc.symm.trans hn)]; ring
        · rw [if_neg hn, if_neg hn, if_neg (fun h => hn (hc.trans h))]; ring
      · rw [if_neg hc]
        simp only [valueOf, ih]
        by_cases hn : g.name = n
        · rw [if_pos hn, if_pos hn]; ring
        · rw [if_neg hn, if_neg hn]

/-- Folding the `SpendingChart` step accumulates, under each name `n`,
exactly the absolute amounts of the folded transactions whose key
`category || 'Other'` equals `n`. -/
theorem valueOf_breakdown_foldl (l : List Transaction) (acc : List Group)
    (n : String) :
    valueOf (l.foldl
        (fun acc t => addToGroup acc (jsOr t.category "Other") |t.amount|) acc) n
      = valueOf acc n +
        ((l.filter (fun t => jsOr t.category "Other" = n)).map
          (fun t => |t.amount|)).sum := by
  induction l generalizing acc with
  | nil => simp
  | cons t l ih =>
      simp only [List.foldl_cons, ih, valueOf_addToGroup, List.filter_cons,
        decide_eq_true_eq]
      by_cases h : jsOr t.category "Other" = n
      · rw [if_pos h, if_pos h]
        simp only [List.map_cons, List.sum_cons]
        ring
      · rw [if_neg h, if_neg h]
        ring

/-- C2 amended: for every list and every name, the value the breakdown
holds under that name equals the sum of `|amount|` over the expense
transactions whose key `category || 'Other'` is that name — i.e. the
breakdown restricts to `amount < 0` and groups by category with only a
MISSING (absent or empty) category mapped to "Other"; a non-empty
category outside the enumerated seven keeps its own name as group key. -/
theorem breakdown_value_eq_groupSum (ts : List Transaction) (n : String) :
    valueOf (categoryBreakdown ts) n = groupSum ts n := by
  have h2 : groupSum ts n
      = (((ts.filter (fun t => t.amount < 0)).filter
            (fun t => jsOr t.category "Other" = n)).map
          (fun t => |t.amount|)).sum := by
    simpa [groupSum] using foldl_add_map (fun t => |t.amount|)
      ((ts.filter (fun t => t.amount < 0)).filter
        (fun t => jsOr t.category "Other" = n)) 0
  rw [categoryBreakdown, valueOf_breakdown_foldl, h2, valueOf, zero_add]

/-- C2 counterexample: a single expense whose category is the non-empty
unknown string "Groceries" is grouped under its own name, while the
spec's grouping rule maps that category to "Other" — so unknown
categories are NOT aggregated under "Other". -/
theorem unknown_category_keeps_own_name :
    (categoryBreakdown [txUnknownCat]).map Group.name = ["Groceries"] ∧
    specGroupKey txUnknownCat.category = "Other" := by
  constructor
  · decide
  · decide

end ExpenseApp
